import Mathlib

/-!
Verification development for the lightgun-dashboard application
(`src/Linux/opt/lightgun-dashboard/app.py`).

The Python source is shallowly embedded below.  Pure text manipulation is
modelled over `List Char` / `String`; the in-memory task registry and the
file system are modelled as explicit state values with the observable
side effects of each operation recorded as an event trace.  Machine-level
concerns (actual network transfers, `chmod`/`chown`, directory creation)
have no observable effect on the properties considered and are abstracted
as environment parameters.
-/

/-! ## Generic association lists (embedding of Python `dict`)

Python dictionaries keep insertion order and assignment to an existing key
replaces the value in place.  `alistGet`/`alistSet` mirror exactly that. -/

def alistGet {κ α : Type} [DecidableEq κ] : List (κ × α) → κ → Option α
  | [], _ => none
  | (k, v) :: rest, q => if k = q then some v else alistGet rest q

def alistSet {κ α : Type} [DecidableEq κ] : List (κ × α) → κ → α → List (κ × α)
  | [], q, v => [(q, v)]
  | (k, w) :: rest, q, v => if k = q then (q, v) :: rest else (k, w) :: alistSet rest q v

theorem alistGet_set_self {κ α : Type} [DecidableEq κ] (m : List (κ × α)) (k : κ) (v : α) :
    alistGet (alistSet m k v) k = some v := by
  induction m with
  | nil => simp [alistGet, alistSet]
  | cons hd tl ih =>
    obtain ⟨k', v'⟩ := hd
    by_cases h : k' = k <;> simp [alistGet, alistSet, h, ih]

theorem alistGet_set_ne {κ α : Type} [DecidableEq κ] (m : List (κ × α)) (k q : κ) (v : α)
    (h : k ≠ q) : alistGet (alistSet m k v) q = alistGet m q := by
  induction m with
  | nil => simp [alistGet, alistSet, h]
  | cons hd tl ih =>
    obtain ⟨k', v'⟩ := hd
    by_cases h' : k' = k
    · subst h'; simp [alistGet, alistSet, h]
    · simp [alistGet, alistSet, h']
      by_cases h'' : k' = q <;> simp [h'', ih]

/-! ## Small Python string helpers -/

/-- Embedding of Python `str.lower` restricted to ASCII letters (every string
the program looks up after lowering is pure ASCII). -/
def pyLowerChar (c : Char) : Char :=
  if 65 ≤ c.toNat ∧ c.toNat ≤ 90 then Char.ofNat (c.toNat + 32) else c

def pyLower (s : String) : String := String.mk (s.data.map pyLowerChar)

/-- Characters removed by Python `str.strip()` (the ASCII whitespace set). -/
def isPySpace (c : Char) : Bool :=
  c = ' ' || c = '\t' || c = '\n' || c = '\r' || c = Char.ofNat 11 || c = Char.ofNat 12

/-- Embedding of Python `str.strip()`. -/
def pyStrip (s : String) : String :=
  let l := s.data.dropWhile isPySpace
  String.mk (l.reverse.dropWhile isPySpace).reverse

/-- The apostrophe character (used in several literal strings of the source). -/
def sqChar : Char := Char.ofNat 39

def sqStr : String := String.mk [sqChar]

/-! ## `_xml_escape_attr` (app.py lines 186-197)

The Python function performs five sequential `str.replace` passes.  For the
single-character patterns used here, `str.replace` is exactly `replaceChar`. -/

def ampEnt : List Char := ['&', 'a', 'm', 'p', ';']
def ltEnt : List Char := ['&', 'l', 't', ';']
def gtEnt : List Char := ['&', 'g', 't', ';']
def quotEnt : List Char := ['&', 'q', 'u', 'o', 't', ';']
def aposEnt : List Char := ['&', 'a', 'p', 'o', 's', ';']

/-- Python `str.replace` for a one-character pattern. -/
def replaceChar (c : Char) (rep : List Char) : List Char → List Char
  | [] => []
  | x :: xs => (if x = c then rep else [x]) ++ replaceChar c rep xs

/-- Embedding of `_xml_escape_attr`: the five `replace` passes, in source
order (`&`, `<`, `>`, `"`, then the apostrophe). -/
def xmlEscapeAttr (s : List Char) : List Char :=
  replaceChar sqChar aposEnt
    (replaceChar '"' quotEnt
      (replaceChar '>' gtEnt
        (replaceChar '<' ltEnt
          (replaceChar '&' ampEnt s))))

/-- Per-character specification of the escaping map. -/
def escChar (c : Char) : List Char :=
  if c = '&' then ampEnt
  else if c = '<' then ltEnt
  else if c = '>' then gtEnt
  else if c = '"' then quotEnt
  else if c = sqChar then aposEnt
  else [c]

mutual

/-- Standard XML attribute unescaping of the five predefined entities
(an ampersand not starting a recognized entity is passed through). -/
def xmlUnescape : List Char → List Char
  | [] => []
  | c :: rest => if c = '&' then ampCase rest else c :: xmlUnescape rest

def ampCase : List Char → List Char
  | 'a' :: 'm' :: 'p' :: ';' :: r => '&' :: xmlUnescape r
  | 'l' :: 't' :: ';' :: r => '<' :: xmlUnescape r
  | 'g' :: 't' :: ';' :: r => '>' :: xmlUnescape r
  | 'q' :: 'u' :: 'o' :: 't' :: ';' :: r => '"' :: xmlUnescape r
  | 'a' :: 'p' :: 'o' :: 's' :: ';' :: r => sqChar :: xmlUnescape r
  | r => '&' :: xmlUnescape r

end

theorem replaceChar_append (c : Char) (rep a b : List Char) :
    replaceChar c rep (a ++ b) = replaceChar c rep a ++ replaceChar c rep b := by
  induction a with
  | nil => simp [replaceChar]
  | cons x xs ih => simp [replaceChar, ih]

theorem xmlEscapeAttr_cons (x : Char) (xs : List Char) :
    xmlEscapeAttr (x :: xs) = escChar x ++ xmlEscapeAttr xs := by
  by_cases h1 : x = '&'
  · subst h1
    simp +decide [xmlEscapeAttr, escChar, replaceChar, replaceChar_append, ampEnt]
  by_cases h2 : x = '<'
  · subst h2
    simp +decide [xmlEscapeAttr, escChar, replaceChar, replaceChar_append, h1, ltEnt]
  by_cases h3 : x = '>'
  · subst h3
    simp +decide [xmlEscapeAttr, escChar, replaceChar, replaceChar_append, h1, h2, gtEnt]
  by_cases h4 : x = '"'
  · subst h4
    simp +decide [xmlEscapeAttr, escChar, replaceChar, replaceChar_append, h1, h2, h3, quotEnt]
  by_cases h5 : x = sqChar
  · subst h5
    simp +decide [xmlEscapeAttr, escChar, replaceChar, replaceChar_append, h1, h2, h3, h4, aposEnt]
  · simp [xmlEscapeAttr, escChar, replaceChar, replaceChar_append, h1, h2, h3, h4, h5]

theorem xmlUnescape_escChar (c : Char) (t : List Char) :
    xmlUnescape (escChar c ++ t) = c :: xmlUnescape t := by
  by_cases h1 : c = '&'
  · subst h1; simp [escChar, ampEnt, xmlUnescape, ampCase]
  by_cases h2 : c = '<'
  · subst h2; simp [escChar, ltEnt, xmlUnescape, ampCase, h1]
  by_cases h3 : c = '>'
  · subst h3; simp [escChar, gtEnt, xmlUnescape, ampCase, h1, h2]
  by_cases h4 : c = '"'
  · subst h4; simp [escChar, quotEnt, xmlUnescape, ampCase, h1, h2, h3]
  by_cases h5 : c = sqChar
  · subst h5; simp [escChar, aposEnt, xmlUnescape, ampCase, h1, h2, h3, h4]
  · simp [escChar, h1, h2, h3, h4, h5, xmlUnescape]

theorem xmlUnescape_xmlEscapeAttr (s : List Char) :
    xmlUnescape (xmlEscapeAttr s) = s := by
  induction s with
  | nil => simp [xmlEscapeAttr, replaceChar, xmlUnescape]
  | cons x xs ih => rw [xmlEscapeAttr_cons, xmlUnescape_escChar, ih]

/-! ## The strict-preservation patch engine (app.py lines 183-276)

The source file compiles its regexes from *raw* Python strings containing
doubled backslashes, e.g. `_ADD_TAG_RE = re.compile(r"<add\\b[^>]*>", re.IGNORECASE)`.
Inside a raw string `\\` is two characters, which the regex engine reads as
an escaped literal backslash.  The patterns therefore require a literal
backslash character in the scanned text:

  * `_ADD_TAG_RE`          matches  `<add\b` (case-insensitively) followed by
                           non-`>` characters and a `>`;
  * the key/value patterns match  `\bkey` / `\bvalue`, then a literal `\`,
                           a run of letters `s`, `=`, `\`, a run of `s`,
                           a quote, a lazy body and the same quote;
  * the closing marker     matches `</appSettings` then a literal `\`,
                           a run of letters `s`, and `>`.

The embedding below reproduces those patterns exactly as the regex engine
interprets them. -/

/-- Case-insensitive character comparison (regex `re.IGNORECASE` on the
ASCII letters appearing in the patterns). -/
def ciEq (a b : Char) : Bool := pyLowerChar a = pyLowerChar b

/-- Does `l` start with `pat`, comparing case-insensitively? -/
def ciStarts : List Char → List Char → Bool
  | [], _ => true
  | _ :: _, [] => false
  | p :: ps, c :: cs => ciEq p c && ciStarts ps cs

/-- The literal text required by `_ADD_TAG_RE` before the `[^>]*>` part:
`<add` followed by a literal backslash and `b`. -/
def addTagLit : List Char := ['<', 'a', 'd', 'd', '\\', 'b']

/-- Index of the first `'>'` in a list, if any. -/
def findGtIdx : List Char → Option Nat
  | [] => none
  | c :: rest => if c = '>' then some 0 else (findGtIdx rest).map (· + 1)

/-- Length of the `_ADD_TAG_RE` match starting at the head of `l`
(regex `<add\\b[^>]*>` with `re.IGNORECASE`): the literal prefix, then the
greedy run of non-`>` characters, then `>`. -/
def addTagMatchLen (l : List Char) : Option Nat :=
  if ciStarts addTagLit l then
    (findGtIdx (l.drop 6)).map (fun i => 6 + i + 1)
  else none

/-- Skip a maximal run of letters `s`/`S` starting at index `i`
(the greedy `s*` of the patterns after the doubled backslash). -/
def skipSRun (l : List Char) (i : Nat) : Nat :=
  ((l.drop i).takeWhile (fun c => ciEq c 's')).length + i

/-- Scan from index `i` for the first occurrence of the quote `q` with no
newline before it (the lazy `(.*?)\1` group, where `.` excludes `\n`).
Returns the index of the closing quote. -/
def findQuoteEnd (l : List Char) (q : Char) : Nat → Option Nat
  | i =>
    match h : l.drop i with
    | [] => none
    | c :: _ =>
      if c = q then some i
      else if c = '\n' then none
      else findQuoteEnd l q (i + 1)
  termination_by i => l.length - i
  decreasing_by
    have hlt : i < l.length := by
      by_contra hge
      rw [List.drop_eq_nil_of_le (Nat.le_of_not_lt hge)] at h
      exact absurd h (by simp)
    omega

/-- Match, at position `i` of `tag`, the body common to the key and value
patterns after their literal-text prefix: literal `\`, `s*`, `=`, literal
`\`, `s*`, a quote (group 1), the lazy body (group 2), the same quote.
Returns `(group2 start, group2 end, match end)`. -/
def matchAttrBody (tag : List Char) (i : Nat) : Option (Nat × Nat × Nat) :=
  match tag.drop i with
  | '\\' :: _ =>
    let j := skipSRun tag (i + 1)
    match tag.drop j with
    | '=' :: _ =>
      match tag.drop (j + 1) with
      | '\\' :: _ =>
        let k := skipSRun tag (j + 2)
        match tag.drop k with
        | q :: _ =>
          if q = '"' ∨ q = sqChar then
            match findQuoteEnd tag q (k + 1) with
            | some e => some (k + 1, e, e + 1)
            | none => none
          else none
        | [] => none
      | _ => none
    | _ => none
  | _ => none

/-- The literal prefix of the key pattern: `\bkey` (case-insensitive). -/
def keyLit : List Char := ['\\', 'b', 'k', 'e', 'y']

/-- The literal prefix of the value pattern: `\bvalue` (case-insensitive). -/
def valueLit : List Char := ['\\', 'b', 'v', 'a', 'l', 'u', 'e']

/-- Try to match the full key/value pattern at position `i` of `tag`;
`lit` is the literal prefix.  Returns `(group2 start, group2 end, match end)`. -/
def matchAttrAt (lit tag : List Char) (i : Nat) : Option (Nat × Nat × Nat) :=
  if ciStarts lit (tag.drop i) then matchAttrBody tag (i + lit.length) else none

/-- `re.search`: the leftmost position at which the pattern matches. -/
def searchAttr (lit tag : List Char) : Nat → Option (Nat × Nat × Nat)
  | i =>
    if h : i < tag.length then
      match matchAttrAt lit tag i with
      | some r => some r
      | none => searchAttr lit tag (i + 1)
    else none
  termination_by i => tag.length - i

/-- A Python `set` of strings, as a list with set-semantics insertion. -/
def setAdd (s : List (List Char)) (k : List Char) : List (List Char) :=
  if s.contains k then s else s ++ [k]

/-- Embedding of the closure `patch_add_tag` (app.py lines 238-255): patch a
single matched `<add ...>` tag, threading the `found_keys` set. -/
def patchAddTag (desired : List (List Char × List Char)) (found : List (List Char))
    (tag : List Char) : List Char × List (List Char) :=
  match searchAttr keyLit tag 0 with
  | none => (tag, found)
  | some (ks, ke, kEnd) =>
    let key := (tag.take ke).drop ks
    match alistGet desired key with
    | none => (tag, found)
    | some v =>
      let found' := setAdd found key
      let newVal := xmlEscapeAttr v
      match searchAttr valueLit tag 0 with
      | some (vs, ve, _) => (tag.take vs ++ newVal ++ tag.drop ve, found')
      | none =>
        (tag.take kEnd ++ (' ' :: ('v' :: 'a' :: 'l' :: 'u' :: 'e' :: '=' :: '"' :: newVal))
          ++ ('"' :: tag.drop kEnd), found')

/-- Embedding of `_ADD_TAG_RE.sub(patch_add_tag, text)`: leftmost,
non-overlapping substitution.  `fuel` is the remaining length bound; every
match consumes at least one character, so `fuel = text.length` suffices and
the zero-fuel row is unreachable. -/
def subAddTagsGo (desired : List (List Char × List Char)) :
    Nat → List Char → List (List Char) → List Char × List (List Char)
  | 0, l, found => (l, found)
  | _ + 1, [], found => ([], found)
  | fuel + 1, c :: rest, found =>
    match addTagMatchLen (c :: rest) with
    | some n =>
      let tag := c :: rest.take (n - 1)
      let pr := patchAddTag desired found tag
      let rec1 := subAddTagsGo desired fuel (rest.drop (n - 1)) pr.2
      (pr.1 ++ rec1.1, rec1.2)
    | none =>
      let rec1 := subAddTagsGo desired fuel rest found
      (c :: rec1.1, rec1.2)

def subAddTags (desired : List (List Char × List Char)) (text : List Char) :
    List Char × List (List Char) :=
  subAddTagsGo desired text.length text []

/-- Embedding of `_build_desired_map` (app.py lines 200-210): player-1 keys
verbatim, player-2 keys with the fixed `P2` suffix; empty keys skipped. -/
def buildDesiredMap (p1 p2 : List (List Char × List Char)) :
    List (List Char × List Char) :=
  let d := p1.foldl (fun d item => if item.1 = [] then d else alistSet d item.1 item.2) []
  p2.foldl (fun d item => if item.1 = [] then d else alistSet d (item.1 ++ ['P', '2']) item.2) d

/-- Python `str.splitlines(True)` for the `\r\n` / `\n` / `\r` terminators. -/
def splitlinesKeep : List Char → List Char → List (List Char)
  | acc, [] => if acc = [] then [] else [acc.reverse]
  | acc, '\r' :: '\n' :: rest => (acc.reverse ++ ['\r', '\n']) :: splitlinesKeep [] rest
  | acc, '\n' :: rest => (acc.reverse ++ ['\n']) :: splitlinesKeep [] rest
  | acc, '\r' :: rest => (acc.reverse ++ ['\r']) :: splitlinesKeep [] rest
  | acc, c :: rest => splitlinesKeep (c :: acc) rest

/-- Python `pat in s` (case-sensitive substring test). -/
def containsSeq (pat : List Char) : List Char → Bool
  | [] => decide (pat = [])
  | c :: rest => pat.isPrefixOf (c :: rest) || containsSeq pat rest

/-- The regex `^([ \t]*)<add\\b` of `_detect_add_indentation` (no
IGNORECASE): leading blanks, then the literal `<add` and a literal `\`
and `b`. -/
def lineIndentMatch (line : List Char) : Option (List Char) :=
  let ind := line.takeWhile (fun c => c = ' ' || c = '\t')
  if addTagLit.isPrefixOf (line.drop ind.length) then some ind else none

/-- Embedding of `_detect_add_indentation` (app.py lines 213-219).  Note the
fallback is a SINGLE space (`return " "` in the source). -/
def detectAddIndentation (text : List Char) : List Char :=
  go (splitlinesKeep [] text)
where
  go : List (List Char) → List Char
    | [] => [' ']
    | line :: rest =>
      if containsSeq ['<', 'a', 'd', 'd'] line then
        match lineIndentMatch line with
        | some ind => ind
        | none => go rest
      else go rest

/-- The literal text required by the closing-marker regex
`</appSettings\\s*>` before its `s*`: `</appSettings` plus a backslash. -/
def closeLit : List Char :=
  ['<', '/', 'a', 'p', 'p', 'S', 'e', 't', 't', 'i', 'n', 'g', 's', '\\']

/-- Match of the closing-marker regex at the head of `l`. -/
def closeMatchAt (l : List Char) : Bool :=
  if ciStarts closeLit l then
    match (l.drop 14).dropWhile (fun c => ciEq c 's') with
    | '>' :: _ => true
    | _ => false
  else false

/-- `re.search` for the closing-marker regex: index of the leftmost match. -/
def findCloseMarker (l : List Char) : Option Nat :=
  go l 0
where
  go : List Char → Nat → Option Nat
    | [], _ => none
    | c :: rest, i => if closeMatchAt (c :: rest) then some i else go rest (i + 1)

/-- The error message raised when the closing marker cannot be located. -/
def structMsg : String :=
  "Could not locate </appSettings> in config; refusing to insert missing keys."

/-- The text of one inserted tag: `<add key="..." value="..." />`. -/
def newAddTag (k v : List Char) : List Char :=
  ('<' :: 'a' :: 'd' :: 'd' :: ' ' :: 'k' :: 'e' :: 'y' :: '=' :: '"' :: xmlEscapeAttr k)
    ++ ('"' :: ' ' :: 'v' :: 'a' :: 'l' :: 'u' :: 'e' :: '=' :: '"' :: xmlEscapeAttr v)
    ++ ['"', ' ', '/', '>']

/-- The scan phase of `update_config_preserve_layout`: the substituted text
and the set of keys found. -/
def patchScan (original : List Char) (p1 p2 : List (List Char × List Char)) :
    List Char × List (List Char) :=
  subAddTags (buildDesiredMap p1 p2) original

/-- The desired keys not found during the scan, in dict insertion order. -/
def patchMissing (original : List Char) (p1 p2 : List (List Char × List Char)) :
    List (List Char) :=
  ((buildDesiredMap p1 p2).map Prod.fst).filter
    (fun k => !(patchScan original p1 p2).2.contains k)

/-- The insertion phase of `update_config_preserve_layout` (app.py lines
260-272), applied when missing keys exist and the closing marker was found
at `pos`: detected indentation, newline convention (`\r\n` if any present),
one new tag per missing key joined with `"\n".join`, spliced in before the
marker. -/
def patchInserted (original : List Char) (p1 p2 : List (List Char × List Char))
    (pos : Nat) : List Char :=
  let desired := buildDesiredMap p1 p2
  let updated := (patchScan original p1 p2).1
  let indent := detectAddIndentation updated
  let newline := if containsSeq ['\r', '\n'] updated then ['\r', '\n'] else ['\n']
  let lines := (patchMissing original p1 p2).map
    (fun k => indent ++ newAddTag k ((alistGet desired k).getD []))
  let insertion := newline ++ List.intercalate ['\n'] lines ++ newline
  updated.take pos ++ insertion ++ updated.drop pos

/-- Embedding of `update_config_preserve_layout` (app.py lines 222-276)
given the current file text.  Returns the new text plus whether a write-back
occurs (`updated != original`), or the `ValueError` message. -/
def updateConfigPreserveLayout (original : List Char)
    (p1 p2 : List (List Char × List Char)) : Except String (List Char × Bool) :=
  if patchMissing original p1 p2 = [] then
    .ok ((patchScan original p1 p2).1, decide ((patchScan original p1 p2).1 ≠ original))
  else
    match findCloseMarker (patchScan original p1 p2).1 with
    | none => .error structMsg
    | some pos =>
      .ok (patchInserted original p1 p2 pos,
           decide (patchInserted original p1 p2 pos ≠ original))

/-- The stub written by `_ensure_stub` (app.py lines 135-143). -/
def stubXml : String :=
  "<?xml version=\"1.0\" encoding=\"utf-8\"?>\n<configuration><appSettings></appSettings></configuration>\n"

/-- State-passing wrapper for the patch operation: the file content before
and after the call.  The source raises *before* it opens the file for
writing, so on error the content is untouched. -/
def runPatch (file : Option (List Char)) (p1 p2 : List (List Char × List Char)) :
    Except String Unit × List Char :=
  let original := match file with
    | none => stubXml.data
    | some c => c
  match updateConfigPreserveLayout original p1 p2 with
  | .error e => (.error e, original)
  | .ok r => (.ok (), r.1)

/-! ## Platform resolution (app.py lines 32-36 and 130-132) -/

def configPaths : List (String × String) :=
  [("ps2", "/home/sinden/Lightgun/PS2/LightgunMono.exe.config"),
   ("ps1", "/home/sinden/Lightgun/PS1/LightgunMono.exe.config")]

def defaultPlatform : String := "ps2"

/-- Embedding of `_resolve_platform`: lowercase (`p or ""` for a missing
value), keep if a known key, else fall back to the default platform. -/
def resolvePlatform (p : Option String) : String :=
  let q := pyLower (p.getD "")
  if (alistGet configPaths q).isSome then q else defaultPlatform

/-- The live config path every configuration/profile/backup route derives
from the resolved platform (`CONFIG_PATHS[platform]`). -/
def livePathFor (p : Option String) : String :=
  (alistGet configPaths (resolvePlatform p)).getD ""

/-- Textual `os.path.dirname`. -/
def dirName (s : String) : String :=
  let r := s.data.reverse
  match r.dropWhile (fun c => c ≠ '/') with
  | [] => ""
  | _ :: rest => String.mk rest.reverse

/-- `<cfg_dir>/profiles` as used by `_profiles_dir_for`. -/
def profilesDirFor (p : Option String) : String :=
  dirName (livePathFor p) ++ "/profiles"

/-- `<cfg_dir>/backups` as used by `_backup_dir_for_platform`. -/
def backupDirFor (p : Option String) : String :=
  dirName (livePathFor p) ++ "/backups"

/-! ## Profile load and backup restore (app.py lines 436-467 and 531-575)

The relevant directory state for one resolved platform: the live config
file (`none` = absent), the profile store and the backup ledger, each a
filename-indexed map of byte contents.  Every write the routes perform is
recorded, in order, as an event. -/

structure FsState where
  live : Option String
  profiles : List (String × String)
  backups : List (String × String)

inductive FsEvent where
  | ensureStub
  | writeBackup (name content : String)
  | writeLive (content : String)
deriving DecidableEq

inductive ApiOutcome where
  | okLoad (backupName : String)
  | okRestore (safetyName : String)
  | invalidName
  | invalidFilename
  | notValidBackup
  | notFound
deriving DecidableEq

def cfgBase : String := "LightgunMono.exe.config"

/-- Embedding of `PROFILE_NAME_RE = re.compile(r"^[A-Za-z0-9_\-]{1,60}$")`
via `.match(name)`: note Python `$` also matches just before one trailing
newline. -/
def profileNameOk (s : String) : Bool :=
  let l := s.data
  let core := match l.getLast? with
    | some c => if c = '\n' then l.dropLast else l
    | none => l
  decide (1 ≤ core.length) && decide (core.length ≤ 60)
    && core.all (fun c => c.isAlpha || c.isDigit || c = '_' || c = '-')

/-- `_ensure_stub` on the live file: create the stub only when absent. -/
def ensureLive (fs : FsState) : FsState × List FsEvent :=
  match fs.live with
  | some _ => (fs, [])
  | none => ({ fs with live := some stubXml }, [FsEvent.ensureStub])

/-- Embedding of the `api_profile_load` route: validate the name, find the
profile, stub the live file if absent, back the live file up, then
overwrite it with the profile bytes.  `ts` is `time.strftime("%Y%m%d-%H%M%S")`. -/
def apiProfileLoad (fs : FsState) (nameRaw ts : String) :
    ApiOutcome × FsState × List FsEvent :=
  let name := pyStrip nameRaw
  if !profileNameOk name then (.invalidName, fs, [])
  else
    match alistGet fs.profiles name with
    | none => (.notFound, fs, [])
    | some profContent =>
      let (fs1, evs) := ensureLive fs
      let liveC := fs1.live.getD ""
      let bname := cfgBase ++ "." ++ ts ++ ".bak"
      let fs2 := { fs1 with backups := alistSet fs1.backups bname liveC }
      let fs3 := { fs2 with live := some profContent }
      (.okLoad bname, fs3, evs ++ [FsEvent.writeBackup bname liveC, FsEvent.writeLive profContent])

/-- Filename validation of `api_backup_restore`: non-empty and free of path
separators. -/
def fileNameClean (filename : String) : Bool :=
  filename ≠ "" && !(filename.data.contains '/') && !(filename.data.contains '\\')

/-- The platform-scoping check of `api_backup_restore`:
`filename.startswith(cfg_base + ".") and filename.endswith(".bak")`. -/
def backupNameForPlatform (filename : String) : Bool :=
  (cfgBase ++ ".").data.isPrefixOf filename.data && ".bak".data.isSuffixOf filename.data

/-- Embedding of the `api_backup_restore` route. -/
def apiBackupRestore (fs : FsState) (filenameRaw ts : String) :
    ApiOutcome × FsState × List FsEvent :=
  let filename := pyStrip filenameRaw
  if !fileNameClean filename then (.invalidFilename, fs, [])
  else if !backupNameForPlatform filename then (.notValidBackup, fs, [])
  else
    match alistGet fs.backups filename with
    | none => (.notFound, fs, [])
    | some _ =>
      let (fs1, evs) := ensureLive fs
      let liveC := fs1.live.getD ""
      let safety := cfgBase ++ "." ++ ts ++ ".restore.bak"
      let fs2 := { fs1 with backups := alistSet fs1.backups safety liveC }
      let srcContent := (alistGet fs2.backups filename).getD ""
      let fs3 := { fs2 with live := some srcContent }
      (.okRestore safety, fs3, evs ++ [FsEvent.writeBackup safety liveC, FsEvent.writeLive srcContent])

/-- The stub events the two routes may emit before their backup. -/
def stubEvents (fs : FsState) : List FsEvent :=
  match fs.live with
  | none => [FsEvent.ensureStub]
  | some _ => []

/-- The live bytes immediately before the backup copy is taken. -/
def liveOrStub (fs : FsState) : String :=
  match fs.live with
  | none => stubXml
  | some c => c

/-! ## Task registry (app.py lines 698-739) -/

structure Downloads where
  downloaded : List String
  failed : List String
deriving DecidableEq

structure ResultPayload where
  ok : Bool
  version : String
  mappedFolder : String
  owner : String
  repo : String
  branch : String
  ps1Remote : String
  ps2Remote : String
  backups : List (String × String)
  dlPs1 : Downloads
  dlPs2 : Downloads
  restarts : List (String × Bool)
deriving DecidableEq

/-- The `result` field: `None` until done; `_progress_done` stores
`result or {}`, i.e. an empty dict when the worker supplies none. -/
inductive DriverResult where
  | emptyDict
  | payload (p : ResultPayload)
deriving DecidableEq

structure TaskRec where
  done : Bool
  error : String
  percent : Int
  step : String
  logs : List String
  result : Option DriverResult
  canceled : Bool
  startedAt : Int
deriving DecidableEq

abbrev Registry := List (String × TaskRec)

def regGet (r : Registry) (id : String) : Option TaskRec := alistGet r id

/-- The fresh record `_progress_init` stores (app.py lines 701-711). -/
def initRec (startedAt : Int) : TaskRec :=
  { done := false, error := "", percent := 0, step := "initializing",
    logs := [], result := none, canceled := false, startedAt := startedAt }

def progressInit (r : Registry) (id : String) (startedAt : Int) : Registry :=
  alistSet r id (initRec startedAt)

/-- The record-level effect of `_progress_update` (app.py lines 714-723):
optional step, clamped optional percent, optional non-empty log line that is
appended with an `[HH:MM:SS]` stamp (`now`). -/
def updateRec (t : TaskRec) (step : Option String) (percent : Option Int)
    (log : Option String) (now : String) : TaskRec :=
  let t1 := match step with
    | some s => { t with step := s }
    | none => t
  let t2 := match percent with
    | some p => { t1 with percent := max 0 (min 100 p) }
    | none => t1
  match log with
  | some l => if l = "" then t2 else { t2 with logs := t2.logs ++ ["[" ++ now ++ "] " ++ l] }
  | none => t2

def progressUpdate (r : Registry) (id : String) (step : Option String)
    (percent : Option Int) (log : Option String) (now : String) : Registry :=
  match regGet r id with
  | none => r
  | some t => alistSet r id (updateRec t step percent log now)

/-- The record-level effect of `_progress_done` (app.py lines 726-733). -/
def doneRec (t : TaskRec) (result : Option ResultPayload) (error : String) : TaskRec :=
  { t with done := true, error := error,
           result := some (match result with
             | none => DriverResult.emptyDict
             | some p => DriverResult.payload p),
           percent := if error = "" then 100 else t.percent }

def progressDone (r : Registry) (id : String) (result : Option ResultPayload)
    (error : String) : Registry :=
  match regGet r id with
  | none => r
  | some t => alistSet r id (doneRec t result error)

/-- Embedding of `_progress_cancel` (app.py lines 736-739). -/
def progressCancel (r : Registry) (id : String) : Registry :=
  match regGet r id with
  | none => r
  | some t => alistSet r id { t with canceled := true }

theorem regGet_set_self (r : Registry) (id : String) (t : TaskRec) :
    regGet (alistSet r id t) id = some t := alistGet_set_self r id t

/-! ## Version normalization and the driver-switch worker
(app.py lines 594-607 and 742-832) -/

def versionAliases : List (String × String) :=
  [("latest", "latest"), ("current", "latest"), ("new", "latest"), ("2", "latest"),
   ("n", "latest"),
   ("psiloc", "psiloc"), ("old", "psiloc"), ("legacy", "psiloc"), ("1", "psiloc"),
   ("o", "psiloc"),
   ("beta", "beta"), ("b", "beta"),
   ("previous", "previous"), ("prev", "previous"), ("p", "previous")]

/-- Embedding of `_normalize_version`: lowercase, then the fixed alias
table with `""` for unknown input. -/
def normalizeVersion (v : String) : String :=
  (alistGet versionAliases (pyLower v)).getD ""

/-- Embedding of `_map_version_to_folder`: identity on the closed channel
set, `ValueError` otherwise (caught by the worker's `except`). -/
def mapVersionToFolder (v : String) : Except String String :=
  if v = "latest" ∨ v = "psiloc" ∨ v = "beta" ∨ v = "previous" then .ok v
  else .error ("Unsupported version: " ++ v)

/-- External side effects of the worker, in program order. -/
inductive SyncEvent where
  | backupConfigs
  | listRemote (path : String)
  | downloadFile (rel destDir : String)
  | restartService (svc : String)
deriving DecidableEq

/-- Environment abstracting the file system, the network and the service
controller used by the worker; `logTime` abstracts `time.strftime("%H:%M:%S")`. -/
structure SyncEnv where
  backupResults : List (String × String)
  listFiles : String → Int × List String × String
  downloadOne : String → String → Downloads
  restartOk : String → Bool
  logTime : String

def servicesList : List String := ["lightgun.service", "lightgun-monitor.service"]

def lightgunDir : String := "/home/sinden/Lightgun"

/-- `os.path.basename`. -/
def baseName (s : String) : String :=
  String.mk ((s.data.reverse.takeWhile (fun c => c ≠ '/')).reverse)

/-- The `_tasks.get(task_id, {}).get("canceled")` checkpoint test. -/
def taskCanceled (r : Registry) (id : String) : Bool :=
  ((regGet r id).map (·.canceled)).getD false

/-- Python `str(dict-of-bool)` as used in the restart-results log line. -/
def renderRestarts (rs : List (String × Bool)) : String :=
  "\x7b" ++ String.intercalate ", "
    (rs.map (fun kv => sqStr ++ kv.1 ++ sqStr ++ ": " ++ (if kv.2 then "True" else "False")))
    ++ "\x7d"

/-- One download loop of the worker (app.py lines 792-800 / 803-811): a
cancellation check before each file, one `_download_to_dir` call per file,
accumulated results and a percent update.  Returns `Sum.inl` when the loop
aborted the whole worker at a cancellation checkpoint. -/
def dlLoop (env : SyncEnv) (taskId label destDir : String) (total : Nat) :
    List String → Registry → List SyncEvent → Downloads → Nat →
    Sum (Registry × List SyncEvent) (Registry × List SyncEvent × Downloads × Nat)
  | [], reg, evs, d, cnt => .inr (reg, evs, d, cnt)
  | rel :: rest, reg, evs, d, cnt =>
    if taskCanceled reg taskId then
      .inl (progressDone reg taskId none "Canceled", evs)
    else
      let r := env.downloadOne rel destDir
      let evs := evs ++ [SyncEvent.downloadFile rel destDir]
      let d : Downloads :=
        { downloaded := d.downloaded ++ r.downloaded, failed := d.failed ++ r.failed }
      let cnt := cnt + 1
      let pct : Int := 35 + Int.ofNat (cnt * 40 / max 1 total)
      let reg := progressUpdate reg taskId none (some pct)
        (some (label ++ ": " ++ baseName rel ++ " " ++ (if r.failed = [] then "OK" else "FAILED")))
        env.logTime
      dlLoop env taskId label destDir total rest reg evs d cnt

/-- The restart step (`_restart_services`, app.py lines 687-695) together
with its events. -/
def restartStep (env : SyncEnv) : List (String × Bool) × List SyncEvent :=
  (["lightgun.service", "lightgun-monitor.service"].map
      (fun svc => (svc, if servicesList.contains svc then env.restartOk svc else false)),
   (["lightgun.service", "lightgun-monitor.service"].filter servicesList.contains).map
      SyncEvent.restartService)

/-- Embedding of `_run_driver_switch_async` (app.py lines 742-832).
Integer percentages follow the float formula `35 + int(done/total*40)`
computed exactly.  Returns the final registry and the external side effects
performed, in order. -/
def runDriverSwitchAsync (env : SyncEnv) (reg : Registry)
    (taskId versionIn owner repo branch : String) (startedAt : Int) :
    Registry × List SyncEvent :=
  let reg := progressInit reg taskId startedAt
  if taskCanceled reg taskId then (progressDone reg taskId none "Canceled", [])
  else
    let reg := progressUpdate reg taskId (some "normalize-version") (some 2)
      (some ("Input version=" ++ sqStr ++ versionIn ++ sqStr)) env.logTime
    let version := normalizeVersion versionIn
    if version = "" then
      (progressDone reg taskId none ("Unrecognized version " ++ sqStr ++ versionIn ++ sqStr), [])
    else
      match mapVersionToFolder version with
      | .error e => (progressDone reg taskId none e, [])
      | .ok mapped =>
        let ps1Remote := "driver/version/" ++ mapped ++ "/PS1"
        let ps2Remote := "driver/version/" ++ mapped ++ "/PS2"
        let reg := progressUpdate reg taskId (some "backup-configs") (some 6)
          (some "Backing up PS1/PS2 configs") env.logTime
        let backups := env.backupResults
        let evs := [SyncEvent.backupConfigs]
        if taskCanceled reg taskId then (progressDone reg taskId none "Canceled", evs)
        else
          let reg := progressUpdate reg taskId (some "list-ps1") (some 15)
            (some ("Listing PS1 assets: " ++ owner ++ "/" ++ repo ++ "@" ++ branch
              ++ ":" ++ ps1Remote)) env.logTime
          let r1 := env.listFiles ps1Remote
          let evs := evs ++ [SyncEvent.listRemote ps1Remote]
          let reg := progressUpdate reg taskId none none
            (some ("PS1 API status=" ++ toString r1.1)) env.logTime
          let reg := progressUpdate reg taskId (some "list-ps2") (some 25)
            (some ("Listing PS2 assets: " ++ owner ++ "/" ++ repo ++ "@" ++ branch
              ++ ":" ++ ps2Remote)) env.logTime
          let r2 := env.listFiles ps2Remote
          let evs := evs ++ [SyncEvent.listRemote ps2Remote]
          let reg := progressUpdate reg taskId none none
            (some ("PS2 API status=" ++ toString r2.1)) env.logTime
          if r1.1 = 404 ∧ r1.2.1 = [] then
            (progressDone reg taskId none ("PS1 path not found: " ++ ps1Remote), evs)
          else if r2.1 = 404 ∧ r2.2.1 = [] then
            (progressDone reg taskId none ("PS2 path not found: " ++ ps2Remote), evs)
          else if !((r1.1 = 200 ∨ r1.1 = 403 ∨ r1.1 = 404)
                    ∧ (r2.1 = 200 ∨ r2.1 = 403 ∨ r2.1 = 404)) then
            (progressDone reg taskId none ("GitHub API error: PS1=" ++ toString r1.1 ++ " "
              ++ r1.2.2 ++ ", PS2=" ++ toString r2.1 ++ " " ++ r2.2.2), evs)
          else if taskCanceled reg taskId then (progressDone reg taskId none "Canceled", evs)
          else
            let ps1Dir := lightgunDir ++ "/PS1"
            let ps2Dir := lightgunDir ++ "/PS2"
            let total := r1.2.1.length + r2.2.1.length
            let reg := progressUpdate reg taskId (some "download-ps1") (some 35)
              (some ("Downloading PS1 assets (" ++ toString r1.2.1.length ++ " files)"))
              env.logTime
            match dlLoop env taskId "PS1" ps1Dir total r1.2.1 reg evs ⟨[], []⟩ 0 with
            | .inl out => out
            | .inr (reg, evs, d1, cnt) =>
              let reg := progressUpdate reg taskId (some "download-ps2") (some 75)
                (some ("Downloading PS2 assets (" ++ toString r2.2.1.length ++ " files)"))
                env.logTime
              match dlLoop env taskId "PS2" ps2Dir total r2.2.1 reg evs ⟨[], []⟩ cnt with
              | .inl out => out
              | .inr (reg, evs, d2, _) =>
                if taskCanceled reg taskId then
                  (progressDone reg taskId none "Canceled", evs)
                else
                  let reg := progressUpdate reg taskId (some "restart-services") (some 90)
                    (some "Restarting services") env.logTime
                  let rst := restartStep env
                  let evs := evs ++ rst.2
                  let reg := progressUpdate reg taskId none none
                    (some ("Service restart results: " ++ renderRestarts rst.1)) env.logTime
                  let payload : ResultPayload :=
                    { ok := true, version := version, mappedFolder := mapped,
                      owner := owner, repo := repo, branch := branch,
                      ps1Remote := ps1Remote, ps2Remote := ps2Remote,
                      backups := backups, dlPs1 := d1, dlPs2 := d2, restarts := rst.1 }
                  (progressDone reg taskId (some payload) "", evs)

/-! ## Claim theorems -/

/-- A settings file whose `appSettings` container holds exactly one entry
tag, `<add key="Sensitivity" value="5" />` (the C1 scenario file). -/
def cfgSample : String :=
  "<?xml version=\"1.0\" encoding=\"utf-8\"?>\n<configuration>\n  <appSettings>\n    <add key=\"Sensitivity\" value=\"5\" />\n  </appSettings>\n</configuration>\n"

set_option maxRecDepth 100000 in
/-- C1.  The spec scenario says patching `Sensitivity` to `"9"` succeeds and
rewrites only the value attribute.  The code instead raises its
`ValueError`: because `_ADD_TAG_RE` is compiled from `r"<add\\b[^>]*>"` -
a raw string whose `\\` the regex engine reads as a literal backslash -
no real `<add ...>` tag ever matches, the key is reported missing, and the
closing-marker regex `</appSettings\\s*>` likewise cannot match the
literal `</appSettings>` that is present in the file, so the patch aborts
and the file keeps `value="5"`. -/
theorem c1_sensitivity_patch_raises :
    containsSeq "<add key=\"Sensitivity\" value=\"5\" />".data cfgSample.data = true
    ∧ containsSeq "</appSettings>".data cfgSample.data = true
    ∧ updateConfigPreserveLayout cfgSample.data [("Sensitivity".data, "9".data)] []
        = .error structMsg
    ∧ runPatch (some cfgSample.data) [("Sensitivity".data, "9".data)] []
        = (.error structMsg, cfgSample.data) :=
  ⟨rfl, rfl, rfl, rfl⟩

/-- C2.  Whenever some desired key was not found among the existing tags
and the closing-marker regex cannot locate the container's closing marker,
`update_config_preserve_layout` fails with its structural `ValueError`, and
the failure is raised before the file is opened for writing: the file
content is exactly what it was before the call.  Conversely, every failure
of the operation is of exactly this kind. -/
theorem c2_structural_error_no_mutation
    (original : List Char) (p1 p2 : List (List Char × List Char))
    (hm : patchMissing original p1 p2 ≠ [])
    (hfc : findCloseMarker (patchScan original p1 p2).1 = none) :
    updateConfigPreserveLayout original p1 p2 = .error structMsg
    ∧ runPatch (some original) p1 p2 = (.error structMsg, original)
    ∧ (∀ e, updateConfigPreserveLayout original p1 p2 = .error e → e = structMsg) := by
  have h2 : updateConfigPreserveLayout original p1 p2 = .error structMsg := by
    rw [updateConfigPreserveLayout, if_neg hm, hfc]
  refine ⟨h2, by simp [runPatch, h2], ?_⟩
  intro e he
  rw [h2] at he
  injection he with he2
  exact he2.symm

set_option maxRecDepth 100000 in
theorem c2_structural_error_no_mutation_witness :
    updateConfigPreserveLayout cfgSample.data [("NewFlag".data, "1".data)] []
      = .error structMsg
    ∧ runPatch (some cfgSample.data) [("NewFlag".data, "1".data)] []
      = (.error structMsg, cfgSample.data) := by
  have h := c2_structural_error_no_mutation cfgSample.data [("NewFlag".data, "1".data)] []
    (by decide) rfl
  exact ⟨h.1, h.2.1⟩

set_option maxRecDepth 100000 in
/-- C3.  The claim says a patch whose desired map repeats the values already
in the file is a no-op completing without error.  On the code it is not:
`"Sensitivity" -> "5"` is already present verbatim in the file, yet the
broken tag regex never records the key as found, so the engine treats it as
missing and raises the closing-marker `ValueError` instead of completing. -/
theorem c3_noop_patch_raises :
    containsSeq "<add key=\"Sensitivity\" value=\"5\" />".data cfgSample.data = true
    ∧ updateConfigPreserveLayout cfgSample.data [("Sensitivity".data, "5".data)] []
        = .error structMsg
    ∧ runPatch (some cfgSample.data) [("Sensitivity".data, "5".data)] []
        = (.error structMsg, cfgSample.data) :=
  ⟨rfl, rfl, rfl⟩

set_option maxRecDepth 100000 in
/-- C4.  The claim says a desired key absent from the file is appended
before the container's closing marker with the detected indentation
(four-space fallback).  On the code: the insertion path always raises the
`ValueError` for a real settings file (the closing-marker regex requires a
literal backslash), and the indentation detector cannot match any real
`<add` line either, so it always returns its fallback - which is a single
space, not four. -/
theorem c4_missing_key_insert_raises :
    containsSeq "</appSettings>".data cfgSample.data = true
    ∧ updateConfigPreserveLayout cfgSample.data [("NewFlag".data, "1".data)] []
        = .error structMsg
    ∧ detectAddIndentation cfgSample.data = [' ']
    ∧ [' '] ≠ "    ".data :=
  ⟨rfl, rfl, rfl, by decide⟩

/-- C5.  `_xml_escape_attr` maps exactly `&` to `&amp;`, `<` to `&lt;`,
`>` to `&gt;`, `"` to `&quot;` and the apostrophe to `&apos;`, leaves every
other character unchanged, and escaping followed by standard XML attribute
unescaping is the identity on every string. -/
theorem c5_escape_roundtrip :
    (∀ s : List Char, xmlUnescape (xmlEscapeAttr s) = s)
    ∧ xmlEscapeAttr ['&'] = ampEnt
    ∧ xmlEscapeAttr ['<'] = ltEnt
    ∧ xmlEscapeAttr ['>'] = gtEnt
    ∧ xmlEscapeAttr ['"'] = quotEnt
    ∧ xmlEscapeAttr [sqChar] = aposEnt
    ∧ (∀ c : Char, c ≠ '&' → c ≠ '<' → c ≠ '>' → c ≠ '"' → c ≠ sqChar →
        xmlEscapeAttr [c] = [c]) :=
  ⟨xmlUnescape_xmlEscapeAttr, by decide, by decide, by decide, by decide, by decide,
   fun c h1 h2 h3 h4 h5 => by simp [xmlEscapeAttr, replaceChar, h1, h2, h3, h4, h5]⟩

theorem c5_escape_roundtrip_witness :
    xmlUnescape (xmlEscapeAttr ['a', '&', '<', 'x']) = ['a', '&', '<', 'x']
    ∧ xmlEscapeAttr ['x'] = ['x'] :=
  ⟨c5_escape_roundtrip.1 _,
   c5_escape_roundtrip.2.2.2.2.2.2 'x' (by decide) (by decide) (by decide) (by decide)
     (by decide)⟩

/-- C6.  Both destructive routes - profile load and backup restore - write
exactly one new backup record, holding a byte-exact copy of the live file as
it stood immediately before, strictly before the single write that
overwrites the live file; the ledger gains exactly that record. -/
theorem c6_backup_before_overwrite :
    (∀ (fs : FsState) (nameRaw ts pc : String),
        profileNameOk (pyStrip nameRaw) = true →
        alistGet fs.profiles (pyStrip nameRaw) = some pc →
        (apiProfileLoad fs nameRaw ts).2.2
          = stubEvents fs
            ++ [FsEvent.writeBackup (cfgBase ++ "." ++ ts ++ ".bak") (liveOrStub fs),
                FsEvent.writeLive pc]
        ∧ (apiProfileLoad fs nameRaw ts).2.1.backups
            = alistSet fs.backups (cfgBase ++ "." ++ ts ++ ".bak") (liveOrStub fs)
        ∧ (apiProfileLoad fs nameRaw ts).2.1.live = some pc)
    ∧ (∀ (fs : FsState) (fnRaw ts bc : String),
        fileNameClean (pyStrip fnRaw) = true →
        backupNameForPlatform (pyStrip fnRaw) = true →
        alistGet fs.backups (pyStrip fnRaw) = some bc →
        pyStrip fnRaw ≠ cfgBase ++ "." ++ ts ++ ".restore.bak" →
        (apiBackupRestore fs fnRaw ts).2.2
          = stubEvents fs
            ++ [FsEvent.writeBackup (cfgBase ++ "." ++ ts ++ ".restore.bak") (liveOrStub fs),
                FsEvent.writeLive bc]
        ∧ (apiBackupRestore fs fnRaw ts).2.1.backups
            = alistSet fs.backups (cfgBase ++ "." ++ ts ++ ".restore.bak") (liveOrStub fs)
        ∧ (apiBackupRestore fs fnRaw ts).2.1.live = some bc) := by
  constructor
  · intro fs nameRaw ts pc hv hp
    cases hl : fs.live with
    | none =>
      refine ⟨?_, ?_, ?_⟩ <;>
        simp [apiProfileLoad, hv, hp, ensureLive, stubEvents, liveOrStub, hl]
    | some c =>
      refine ⟨?_, ?_, ?_⟩ <;>
        simp [apiProfileLoad, hv, hp, ensureLive, stubEvents, liveOrStub, hl]
  · intro fs fnRaw ts bc hclean hplat hb hne
    have hsrc : ∀ (bks : List (String × String)) (v : String),
        alistGet (alistSet bks (cfgBase ++ "." ++ ts ++ ".restore.bak") v)
          (pyStrip fnRaw) = alistGet bks (pyStrip fnRaw) :=
      fun bks v => alistGet_set_ne bks _ _ v (fun hh => hne hh.symm)
    cases hl : fs.live with
    | none =>
      refine ⟨?_, ?_, ?_⟩ <;>
        simp [apiBackupRestore, hclean, hplat, hb, ensureLive, stubEvents, liveOrStub, hl, hsrc]
    | some c =>
      refine ⟨?_, ?_, ?_⟩ <;>
        simp [apiBackupRestore, hclean, hplat, hb, ensureLive, stubEvents, liveOrStub, hl, hsrc]

/-- A concrete directory state used to witness the C6 theorem. -/
def fsSample : FsState :=
  { live := some "LIVEBYTES",
    profiles := [("tuned", "PROFILEBYTES")],
    backups := [("LightgunMono.exe.config.20240101-000000.bak", "OLDBACKUP")] }

theorem c6_backup_before_overwrite_witness :
    (apiProfileLoad fsSample "tuned" "20250102-030405").2.2
      = [FsEvent.writeBackup "LightgunMono.exe.config.20250102-030405.bak" "LIVEBYTES",
         FsEvent.writeLive "PROFILEBYTES"]
    ∧ (apiBackupRestore fsSample "LightgunMono.exe.config.20240101-000000.bak"
          "20250102-030405").2.2
      = [FsEvent.writeBackup "LightgunMono.exe.config.20250102-030405.restore.bak" "LIVEBYTES",
         FsEvent.writeLive "OLDBACKUP"] := by
  have h1 := (c6_backup_before_overwrite.1 fsSample "tuned" "20250102-030405" "PROFILEBYTES"
    (by decide) rfl).1
  have h2 := (c6_backup_before_overwrite.2 fsSample
    "LightgunMono.exe.config.20240101-000000.bak" "20250102-030405" "OLDBACKUP"
    (by decide) (by decide) rfl (by decide)).1
  exact ⟨h1, h2⟩

/-- A completed task record (a successful run: `done=true`, empty error,
not canceled). -/
def doneTask : TaskRec :=
  { done := true, error := "", percent := 100, step := "restart-services",
    logs := [], result := some DriverResult.emptyDict, canceled := false, startedAt := 0 }

def regDone : Registry := [("t1", doneTask)]

/-- C7 counterexample.  The claim says no operation changes a record once
`done=true`.  But `_progress_cancel` carries no `done` guard: applied to a
completed record it flips `canceled`, so the stored record changes. -/
theorem c7_done_record_mutable_cex :
    regGet (progressCancel regDone "t1") "t1" ≠ regGet regDone "t1"
    ∧ (regGet regDone "t1").map TaskRec.done = some true := by
  refine ⟨?_, rfl⟩
  decide

/-- C7 amended.  None of the registry operations checks `done`, so a
completed record stays mutable: a cancel request sets `canceled := true`
(leaving the other fields as they were), a progress update still rewrites
`step`, and a further `_progress_done` overwrites `error`/`result`.
After completion the record is left alone only because the owning worker
has returned and issues no further updates. -/
theorem c7_done_record_still_mutable
    (r : Registry) (id : String) (t : TaskRec)
    (hget : regGet r id = some t) (hdone : t.done = true) :
    regGet (progressCancel r id) id = some { t with canceled := true }
    ∧ (∀ s now, regGet (progressUpdate r id (some s) none none now) id
        = some { t with step := s })
    ∧ (∀ e, e ≠ "" → regGet (progressDone r id none e) id
        = some { t with done := true, error := e,
                        result := some DriverResult.emptyDict }) := by
  refine ⟨?_, ?_, ?_⟩
  · simp [progressCancel, hget, regGet_set_self]
  · intro s now
    simp [progressUpdate, hget, updateRec, regGet_set_self]
  · intro e he
    simp [progressDone, hget, doneRec, he, regGet_set_self, hdone]

theorem c7_done_record_still_mutable_witness :
    regGet (progressCancel regDone "t1") "t1" = some { doneTask with canceled := true }
    ∧ regGet (progressUpdate regDone "t1" (some "s2") none none "11:12:13") "t1"
        = some { doneTask with step := "s2" } := by
  have h := c7_done_record_still_mutable regDone "t1" doneTask rfl rfl
  exact ⟨h.1, h.2.1 "s2" "11:12:13"⟩

/-- A successful `alistGet` lookup returns a pair of the list. -/
theorem alistGet_mem {κ α : Type} [DecidableEq κ] (m : List (κ × α)) (q : κ) (v : α)
    (h : alistGet m q = some v) : (q, v) ∈ m := by
  induction m with
  | nil => simp [alistGet] at h
  | cons hd tl ih =>
    obtain ⟨k, w⟩ := hd
    by_cases hk : k = q
    · subst hk
      simp [alistGet] at h
      simp [h]
    · simp [alistGet, hk] at h
      exact List.mem_cons_of_mem _ (ih h)

/-- Membership helper for `alistGet` over the concrete alias table. -/
theorem alistGet_versionAliases_closed (q v : String)
    (h : alistGet versionAliases q = some v) :
    v = "latest" ∨ v = "psiloc" ∨ v = "beta" ∨ v = "previous" := by
  have hmem := alistGet_mem versionAliases q v h
  simp [versionAliases, Prod.ext_iff] at hmem
  rcases hmem with ⟨_, h1⟩ | ⟨_, h1⟩ | ⟨_, h1⟩ | ⟨_, h1⟩ | ⟨_, h1⟩ | ⟨_, h1⟩ | ⟨_, h1⟩
    | ⟨_, h1⟩ | ⟨_, h1⟩ | ⟨_, h1⟩ | ⟨_, h1⟩ | ⟨_, h1⟩ | ⟨_, h1⟩ | ⟨_, h1⟩ | ⟨_, h1⟩ <;>
    subst h1 <;> simp

theorem taskCanceled_progressInit (reg : Registry) (id : String) (t : Int) :
    taskCanceled (progressInit reg id t) id = false := by
  simp [taskCanceled, progressInit, regGet_set_self, initRec]

/-- C8.  `_normalize_version` is case-insensitive over its fixed alias
table into the closed channel set; `"old"` and `"1"` both resolve to
`psiloc`; an unrecognized alias makes the worker finish in an error state
immediately - the external event trace is empty, so no backup, remote
listing, download or service restart has happened. -/
theorem c8_normalize_version :
    normalizeVersion "old" = "psiloc"
    ∧ normalizeVersion "1" = "psiloc"
    ∧ normalizeVersion "OLD" = "psiloc"
    ∧ normalizeVersion "bogus" = ""
    ∧ (∀ a b : String, pyLower a = pyLower b → normalizeVersion a = normalizeVersion b)
    ∧ (∀ v : String, normalizeVersion v = "" ∨ normalizeVersion v = "latest"
        ∨ normalizeVersion v = "psiloc" ∨ normalizeVersion v = "beta"
        ∨ normalizeVersion v = "previous")
    ∧ (∀ (env : SyncEnv) (reg : Registry) (id v o r b : String) (t : Int),
        normalizeVersion v = "" →
        (runDriverSwitchAsync env reg id v o r b t).2 = []
        ∧ ∃ rec, regGet (runDriverSwitchAsync env reg id v o r b t).1 id = some rec
            ∧ rec.done = true
            ∧ rec.error = "Unrecognized version " ++ sqStr ++ v ++ sqStr) := by
  refine ⟨rfl, rfl, rfl, rfl, ?_, ?_, ?_⟩
  · intro a b h
    simp [normalizeVersion, h]
  · intro v
    cases h : alistGet versionAliases (pyLower v) with
    | none => left; simp [normalizeVersion, h]
    | some val =>
      have := alistGet_versionAliases_closed _ _ h
      rcases this with h1 | h1 | h1 | h1 <;>
        simp [normalizeVersion, h, h1]
  · intro env reg id v o r b t hv
    have hc := taskCanceled_progressInit reg id t
    have hc2 := hc
    simp only [progressInit] at hc2
    constructor
    · simp [runDriverSwitchAsync, hc, hv]
    · have hrec : regGet (runDriverSwitchAsync env reg id v o r b t).1 id
          = some (doneRec (updateRec (initRec t) (some "normalize-version") (some 2)
              (some ("Input version=" ++ sqStr ++ v ++ sqStr)) env.logTime) none
              ("Unrecognized version " ++ sqStr ++ v ++ sqStr)) := by
        simp [runDriverSwitchAsync, hc2, hv, progressUpdate, progressInit, progressDone,
          regGet_set_self]
      exact ⟨_, hrec, rfl, rfl⟩

def envSample : SyncEnv :=
  { backupResults := [],
    listFiles := fun _ => (404, [], "not found"),
    downloadOne := fun _ _ => { downloaded := [], failed := [] },
    restartOk := fun _ => true,
    logTime := "00:00:00" }

theorem c8_normalize_version_witness :
    (runDriverSwitchAsync envSample [] "w1" "bogus" "o" "r" "b" 0).2 = []
    ∧ ((regGet (runDriverSwitchAsync envSample [] "w1" "bogus" "o" "r" "b" 0).1 "w1").map
        TaskRec.done) = some true
    ∧ ((regGet (runDriverSwitchAsync envSample [] "w1" "bogus" "o" "r" "b" 0).1 "w1").map
        TaskRec.error) = some ("Unrecognized version " ++ sqStr ++ "bogus" ++ sqStr) := by
  obtain ⟨h1, rec, h2, h3, h4⟩ :=
    c8_normalize_version.2.2.2.2.2.2 envSample [] "w1" "bogus" "o" "r" "b" 0 rfl
  refine ⟨h1, ?_, ?_⟩
  · simp [h2, h3]
  · simp [h2, h4]

/-- C9.  `_resolve_platform` always returns one of the two known platform
keys, silently falling back to the default `"ps2"` whenever the lowered
input is not a known key (including the empty string, a missing value, and
arbitrary junk).  Consequently the live-config path - and with it the
profile and backup directories every configuration, profile and backup
route derives from it - is the default platform's for any invalid input. -/
theorem c9_resolve_platform_fallback :
    (∀ p : Option String, resolvePlatform p = "ps1" ∨ resolvePlatform p = "ps2")
    ∧ resolvePlatform none = "ps2"
    ∧ resolvePlatform (some "") = "ps2"
    ∧ resolvePlatform (some "gamecube") = "ps2"
    ∧ resolvePlatform (some "PS1") = "ps1"
    ∧ (∀ p : Option String, pyLower (p.getD "") ≠ "ps1" → pyLower (p.getD "") ≠ "ps2" →
        resolvePlatform p = defaultPlatform
        ∧ livePathFor p = livePathFor (some defaultPlatform)
        ∧ profilesDirFor p = profilesDirFor (some defaultPlatform)
        ∧ backupDirFor p = backupDirFor (some defaultPlatform)) := by
  have hres : ∀ p : Option String, pyLower (p.getD "") ≠ "ps1" → pyLower (p.getD "") ≠ "ps2" →
      resolvePlatform p = defaultPlatform := by
    intro p h1 h2
    have hnone : alistGet configPaths (pyLower (p.getD "")) = none := by
      simp only [configPaths, alistGet]
      rw [if_neg (fun hh => h2 hh.symm), if_neg (fun hh => h1 hh.symm)]
    simp [resolvePlatform, hnone]
  refine ⟨?_, rfl, rfl, rfl, rfl, ?_⟩
  · intro p
    by_cases h1 : pyLower (p.getD "") = "ps1"
    · left; simp [resolvePlatform, h1, configPaths, alistGet]
    by_cases h2 : pyLower (p.getD "") = "ps2"
    · right; simp [resolvePlatform, h2, configPaths, alistGet]
    · right; exact hres p h1 h2
  · intro p h1 h2
    have hd : resolvePlatform (some defaultPlatform) = defaultPlatform := rfl
    exact ⟨hres p h1 h2, by simp [livePathFor, hres p h1 h2, hd],
      by simp [profilesDirFor, livePathFor, hres p h1 h2, hd],
      by simp [backupDirFor, livePathFor, hres p h1 h2, hd]⟩

theorem c9_resolve_platform_fallback_witness :
    resolvePlatform (some "GameCube") = defaultPlatform
    ∧ livePathFor (some "GameCube") = livePathFor (some defaultPlatform)
    ∧ backupDirFor (some "GameCube") = backupDirFor (some defaultPlatform) := by
  have h := c9_resolve_platform_fallback.2.2.2.2.2 (some "GameCube") (by decide) (by decide)
  exact ⟨h.1, h.2.1, h.2.2.2⟩

/-- C10.  `_progress_init` resets the whole record to its initial state
(`canceled = False` included); the submission route initializes the record
and the worker re-initializes it as its first action, so a cancel request
landing in between is wiped out.  The last conjunct runs the whole worker
on a registry canceled right after submission: the worker sails past its
first cancellation checkpoint (the run ends with the version error of its
`"bogus"` input rather than with `error="Canceled"`). -/
theorem c10_reinit_loses_cancel :
    (∀ (reg : Registry) (id : String) (t : Int),
        regGet (progressInit reg id t) id = some (initRec t))
    ∧ (∀ (reg : Registry) (id : String) (t1 t2 : Int),
        regGet (progressInit (progressCancel (progressInit reg id t1) id) id t2) id
          = some (initRec t2))
    ∧ (∀ t : Int, (initRec t).canceled = false)
    ∧ (regGet (runDriverSwitchAsync envSample
          (progressCancel (progressInit [] "t9" 0) "t9") "t9" "bogus" "o" "r" "b" 1).1
        "t9").map TaskRec.error
      = some ("Unrecognized version " ++ sqStr ++ "bogus" ++ sqStr) := by
  refine ⟨?_, ?_, fun _ => rfl, ?_⟩
  · intro reg id t
    exact regGet_set_self reg id (initRec t)
  · intro reg id t1 t2
    exact regGet_set_self _ id (initRec t2)
  · rfl
